import Mathlib

/-!
Verification of the artifact-analysis acquisition layer.

This file gives a shallow embedding, in Lean 4, of the core functions of the
repository (badge normalization, the disk cache reads, the URL-existence and
GitHub-stats caching, the ACM circuit breaker, the results-page parser, the
affiliation classifier, and the committee aggregator), together with theorems
settling the specification claims about them.

Conventions of the embedding:
* Python strings are modelled as Lean `String`/`List Char` restricted to the
  ASCII fragment (e.g. `str.lower` is the ASCII lowering `Char.toLower`).
* Machine time is modelled as `Int` seconds; `time.time() - ts < ttl` becomes
  integer comparison.
* External libraries (yaml.safe_load, BeautifulSoup, thefuzz.fuzz.ratio, the
  network) are not code of this repository; they enter as explicit oracle
  parameters, while every piece of repository code is translated directly.
* Python exceptions that escape a function are modelled with `Except`.
-/

namespace ArtifactAnalysis

/-! ## Python string primitives (ASCII model) -/

/-- Python `str.lower` on the ASCII fragment. -/
def pyLower (s : String) : String :=
  String.mk (s.data.map Char.toLower)

/-- `needle` occurs as a contiguous run inside `hay`. -/
def listInfixOf (needle : List Char) : List Char → Bool
  | [] => needle.isEmpty
  | c :: rest => needle.isPrefixOf (c :: rest) || listInfixOf needle rest

/-- Python `sub in s` substring test. -/
def pyIn (sub s : String) : Bool :=
  listInfixOf sub.data s.data

/-- Dropping a while-satisfied run never lengthens a list. -/
theorem dropWhile_len_le (p : Char → Bool) (l : List Char) :
    (l.dropWhile p).length ≤ l.length := by
  induction l with
  | nil => simp
  | cons c rest ih =>
    by_cases h : p c
    · simp [List.dropWhile, h]
      omega
    · simp [List.dropWhile, h]

/-- Python `str.strip()` (strip whitespace from both ends). -/
def pyStrip (s : String) : String :=
  String.mk ((s.data.dropWhile Char.isWhitespace).reverse.dropWhile
    Char.isWhitespace).reverse

/-- Python `str.strip(chars)`: strip any of the given characters from both ends. -/
def pyStripChars (chars : List Char) (s : String) : String :=
  String.mk ((s.data.dropWhile (fun c => chars.contains c)).reverse.dropWhile
    (fun c => chars.contains c)).reverse

/-- State machine for whitespace collapsing: `prevWs` records whether the
previous character belonged to a whitespace run that already emitted its
single space. -/
def collapseWsAux (prevWs : Bool) : List Char → List Char
  | [] => []
  | c :: rest =>
    if c.isWhitespace then
      if prevWs then collapseWsAux true rest
      else ' ' :: collapseWsAux true rest
    else c :: collapseWsAux false rest

/-- Collapse every maximal run of whitespace to a single space
(Python `re.sub(r'\s+', ' ', s)`). -/
def collapseWs (l : List Char) : List Char :=
  collapseWsAux false l

/-- String-level wrapper for `collapseWs`. -/
def pyCollapseWs (s : String) : String :=
  String.mk (collapseWs s.data)

/-! ## Badge normalization (`acm_scrape._normalise_badge`)

```python
_BADGE_MAP = { 'artifacts_available': 'available', ... }

def _normalise_badge(text):
    key = re.sub(r'[^a-z ]', '', text.lower()).strip()
    key = re.sub(r'\s+', ' ', key)
    return _BADGE_MAP.get(key, key)
```
-/

/-- The `_BADGE_MAP` dictionary of `acm_scrape.py`, as an association list in
source order. -/
def BADGE_MAP : List (String × String) :=
  [ ("artifacts_available",            "available"),
    ("artifacts available",            "available"),
    ("available",                      "available"),
    ("artifacts_evaluated_functional", "functional"),
    ("artifacts evaluated functional", "functional"),
    ("artifacts_evaluated",            "functional"),
    ("functional",                     "functional"),
    ("artifacts_evaluated_reusable",   "reusable"),
    ("artifacts evaluated reusable",   "reusable"),
    ("reusable",                       "reusable"),
    ("results_reproduced",             "reproduced"),
    ("results reproduced",             "reproduced"),
    ("reproduced",                     "reproduced"),
    ("results_replicated",             "reproduced"),
    ("results replicated",             "reproduced"),
    ("replicated",                     "reproduced") ]

/-- Python dict `.get(key, default)` on an association list (first binding wins,
as in a dict built by listing the pairs once). -/
def dictGet (m : List (String × String)) (key default : String) : String :=
  match m.find? (fun kv => kv.1 = key) with
  | some kv => kv.2
  | none => default

/-- The key computed by `_normalise_badge` before the map lookup:
lowercase, delete every character outside `[a-z ]`, strip, collapse spaces. -/
def normaliseKey (text : String) : String :=
  let lowered := (pyLower text).data
  let filtered := lowered.filter (fun c => (Char.ofNat 97 ≤ c ∧ c ≤ Char.ofNat 122) ∨ c = ' ')
  pyCollapseWs (pyStrip (String.mk filtered))

/-- `acm_scrape._normalise_badge`. -/
def normalise_badge (text : String) : String :=
  dictGet BADGE_MAP (normaliseKey text) (normaliseKey text)

/-- C2: the claim is that the three spellings "Artifacts Available",
"artifacts_available" and "available" all normalise to the canonical value
"available".  The code disagrees on the underscore spelling: the key-cleaning
regex `[^a-z ]` deletes underscores before the `_BADGE_MAP` lookup, so
`_normalise_badge("artifacts_available")` returns "artifactsavailable", even
though `_BADGE_MAP` itself contains the entry
`'artifacts_available': 'available'` (which is therefore unreachable).  This
theorem records the evaluation of the code at the three claimed inputs and the
contradiction with the code's own table. -/
theorem c2_underscore_spelling_not_normalised :
    normalise_badge "Artifacts Available" = "available" ∧
    normalise_badge "available" = "available" ∧
    normalise_badge "artifacts_available" = "artifactsavailable" ∧
    normalise_badge "artifacts_available" ≠ "available" ∧
    dictGet BADGE_MAP "artifacts_available" "artifacts_available" = "available" := by
  refine ⟨by rfl, by rfl, by rfl, by decide, by rfl⟩

/-- C7 counterexample: the claim says an unrecognized badge string passes
through *unmodified*; but `_normalise_badge` returns the cleaned lookup key,
so "Unknown Badge!" comes back as "unknown badge", not as the original. -/
theorem c7_counterexample_not_original_string :
    normalise_badge "Unknown Badge!" = "unknown badge" ∧
    normalise_badge "Unknown Badge!" ≠ "Unknown Badge!" := by
  exact ⟨by rfl, by decide⟩

/-- C7 (amended): for every input whose cleaned key (lowercased, characters
outside `[a-z ]` deleted, whitespace collapsed) matches no `_BADGE_MAP` entry,
`_normalise_badge` returns that cleaned key itself — the string is passed
through (in normalised form) rather than being dropped or rewritten to a
badge value. -/
theorem c7_unrecognized_passes_through_cleaned
    (s : String)
    (h : BADGE_MAP.find? (fun kv => kv.1 = normaliseKey s) = none) :
    normalise_badge s = normaliseKey s := by
  unfold normalise_badge dictGet
  rw [h]

/-- Witness for C7 (amended) at a concrete unrecognized input. -/
theorem c7_unrecognized_passes_through_cleaned_witness :
    normalise_badge "mystery badge" = normaliseKey "mystery badge" :=
  c7_unrecognized_passes_through_cleaned "mystery badge" (by rfl)

/-! ## Disk cache (`sys_sec_scrape._read_cache` and friends)

```python
def _read_cache(key, ttl=CACHE_TTL, namespace='default'):
    path = _cache_path(key, namespace)
    if not os.path.exists(path):
        return None
    try:
        with open(path, 'r') as f:
            entry = json.load(f)
        if time.time() - entry['ts'] < ttl:
            return entry['body']
    except (json.JSONDecodeError, KeyError, OSError):
        pass
    return None
```
-/

/-- JSON values as produced by Python `json.load`. -/
inductive JValue where
  | null
  | bool (b : Bool)
  | num (n : Int)
  | str (s : String)
  | arr (elems : List JValue)
  | obj (fields : List (String × JValue))

/-- What the on-disk cache file for one (namespace, key) can hold. -/
inductive CacheFile where
  | missing
  | unreadable
  | notJson (raw : String)
  | json (v : JValue)

/-- The Python exceptions relevant to the cache model.  `typeError` is the one
exception class the `except (json.JSONDecodeError, KeyError, OSError)` clause
of `_read_cache` does not catch but that its body can raise. -/
inductive PyExc where
  | typeError
deriving DecidableEq

/-- Values on which Python `time.time() - v` is defined: numbers, with `bool`
being an `int` subclass (`True == 1`, `False == 0`). -/
def JValue.asNumber : JValue → Option Int
  | .num n => some n
  | .bool b => some (if b then 1 else 0)
  | _ => none

/-- Key lookup in a JSON object (Python `entry[key]`, `KeyError` as `none`). -/
def JValue.objGet (fields : List (String × JValue)) (key : String) : Option JValue :=
  match fields.find? (fun kv => kv.1 = key) with
  | some kv => some kv.2
  | none => none

/-- `sys_sec_scrape._read_cache`, over the current clock, the TTL, and the
on-disk content of the entry.  `Except.error` models an uncaught exception
escaping to the caller. -/
def read_cache (now ttl : Int) (file : CacheFile) : Except PyExc (Option JValue) :=
  match file with
  | .missing => .ok none
  | .unreadable => .ok none
  | .notJson _ => .ok none
  | .json v =>
    match v with
    | .obj fields =>
      match JValue.objGet fields "ts" with
      | none => .ok none
      | some tsv =>
        match tsv.asNumber with
        | none => .error .typeError
        | some ts =>
          if now - ts < ttl then
            match JValue.objGet fields "body" with
            | none => .ok none
            | some body => .ok (some body)
          else .ok none
    | _ => .error .typeError

/-- C8 counterexample: the claim says every malformed cache entry is treated
as absent and never raises, but a file whose content is valid JSON of the
wrong shape — here the JSON array `[]` — makes `_read_cache` evaluate
`entry['ts']` on a list, raising an uncaught `TypeError`. -/
theorem c8_counterexample_json_array_raises :
    read_cache 0 86400 (.json (.arr [])) = .error .typeError ∧
    read_cache 0 86400 (.json (.arr [])) ≠ .ok none :=
  ⟨rfl, fun h => Except.noConfusion h⟩

/-- C8 (amended): a missing file, an unreadable file (`OSError`), content that
is not valid JSON (`JSONDecodeError`), and a JSON object missing the `ts` or
`body` keys (`KeyError`) are all treated as absent without raising; but valid
JSON that is not an object — or an object whose `ts` is not a number — makes
the read raise a `TypeError` instead of being treated as absent. -/
theorem c8_malformed_entries_mostly_absent :
    (∀ now ttl : Int, read_cache now ttl .missing = .ok none) ∧
    (∀ now ttl : Int, read_cache now ttl .unreadable = .ok none) ∧
    (∀ (now ttl : Int) (raw : String), read_cache now ttl (.notJson raw) = .ok none) ∧
    (∀ (now ttl : Int) (fields : List (String × JValue)),
      JValue.objGet fields "ts" = none →
      read_cache now ttl (.json (.obj fields)) = .ok none) ∧
    (∀ (now ttl ts : Int) (fields : List (String × JValue)),
      JValue.objGet fields "ts" = some (.num ts) →
      now - ts < ttl →
      JValue.objGet fields "body" = none →
      read_cache now ttl (.json (.obj fields)) = .ok none) ∧
    (∀ (now ttl : Int) (elems : List JValue),
      read_cache now ttl (.json (.arr elems)) = .error .typeError) ∧
    (∀ (now ttl : Int) (fields : List (String × JValue)),
      JValue.objGet fields "ts" = some (.str "corrupt") →
      read_cache now ttl (.json (.obj fields)) = .error .typeError) := by
  refine ⟨fun _ _ => rfl, fun _ _ => rfl, fun _ _ _ => rfl, ?_, ?_, fun _ _ _ => rfl, ?_⟩
  · intro now ttl fields h
    simp only [read_cache]
    rw [h]
  · intro now ttl ts fields hts hfresh hbody
    simp only [read_cache]
    rw [hts]
    simp only [JValue.asNumber]
    rw [if_pos hfresh, hbody]
  · intro now ttl fields h
    simp only [read_cache]
    rw [h]
    rfl

/-- Witness for C8 (amended): an entry missing its `ts` key is absent. -/
theorem c8_malformed_entries_mostly_absent_witness :
    read_cache 100 50 (.json (.obj [("etag", .str "x")])) = .ok none :=
  c8_malformed_entries_mostly_absent.2.2.2.1 100 50 [("etag", .str "x")] (by rfl)

/-! ## URL existence checks (`sys_sec_scrape.check_url_cached`) -/

/-- TTL constants of `sys_sec_scrape.py` (seconds). -/
def CACHE_TTL : Int := 86400 * 30

/-- Positive URL-existence TTL (90 days). -/
def CACHE_TTL_URL : Int := 86400 * 90

/-- Negative URL-existence TTL (7 days). -/
def CACHE_TTL_URL_NEG : Int := 86400 * 7

/-- GitHub/Zenodo/Figshare stats TTL (30 days). -/
def CACHE_TTL_STATS : Int := 86400 * 30

/-- A well-formed entry of the `url_exists` namespace, as written by
`_write_cache(url, exists)`: a timestamp and a boolean body. -/
structure UrlEntry where
  ts : Int
  body : Bool
deriving DecidableEq

/-- `_read_cache` specialised to a well-formed `url_exists` entry. -/
def read_cache_url (now ttl : Int) (e : Option UrlEntry) : Option Bool :=
  match e with
  | none => none
  | some e => if now - e.ts < ttl then some e.body else none

/-- `read_cache_url` agrees with the general `read_cache` on the JSON encoding
`{"ts": ts, "body": body}` that `_write_cache` produces. -/
theorem read_cache_url_models (now ttl : Int) (e : UrlEntry) :
    read_cache now ttl (.json (.obj [("ts", .num e.ts), ("body", .bool e.body)]))
      = .ok ((read_cache_url now ttl (some e)).map JValue.bool) := by
  unfold read_cache read_cache_url JValue.objGet
  by_cases h : now - e.ts < ttl <;> simp [h, List.find?, JValue.asNumber]

/-- `sys_sec_scrape.check_url_cached`, over the current clock, the `ttl`
argument, the cached entry for the URL, and the outcome the network would
report (`HEAD` status 200, with request errors counted as `False`).
Returns (result, whether the network was contacted, the entry afterwards). -/
def check_url_cached (now ttl : Int) (e : Option UrlEntry) (network : Bool) :
    Bool × Bool × Option UrlEntry :=
  match read_cache_url now ttl e with
  | some true => (true, false, e)
  | _ =>
    match read_cache_url now CACHE_TTL_URL_NEG e with
    | some false => (false, false, e)
    | _ => (network, true, some ⟨now, network⟩)

/-- The two URL-existence TTLs are strictly ordered. -/
theorem ttl_neg_lt_ttl_url : CACHE_TTL_URL_NEG < CACHE_TTL_URL := by
  norm_num [CACHE_TTL_URL_NEG, CACHE_TTL_URL]

/-- C9: the negative TTL (7 days) is strictly shorter than the positive TTL
(90 days); `check_url_cached` (at its default `ttl=CACHE_TTL_URL`) trusts a
cached `True` for the full long TTL and a cached `False` only for the short
TTL, and contacts the network again as soon as the respective TTL has
elapsed — so a cached negative result becomes eligible for re-check strictly
sooner than a cached positive one. -/
theorem c9_ttl_asymmetry :
    CACHE_TTL_URL_NEG < CACHE_TTL_URL ∧
    (∀ now ts : Int, ∀ net : Bool, now - ts < CACHE_TTL_URL →
      check_url_cached now CACHE_TTL_URL (some ⟨ts, true⟩) net
        = (true, false, some ⟨ts, true⟩)) ∧
    (∀ now ts : Int, ∀ net : Bool, now - ts < CACHE_TTL_URL_NEG →
      check_url_cached now CACHE_TTL_URL (some ⟨ts, false⟩) net
        = (false, false, some ⟨ts, false⟩)) ∧
    (∀ now ts : Int, ∀ net : Bool, CACHE_TTL_URL_NEG ≤ now - ts →
      check_url_cached now CACHE_TTL_URL (some ⟨ts, false⟩) net
        = (net, true, some ⟨now, net⟩)) ∧
    (∀ now ts : Int, ∀ net : Bool, CACHE_TTL_URL ≤ now - ts →
      check_url_cached now CACHE_TTL_URL (some ⟨ts, true⟩) net
        = (net, true, some ⟨now, net⟩)) := by
  refine ⟨ttl_neg_lt_ttl_url, ?_, ?_, ?_, ?_⟩
  · intro now ts net h
    simp [check_url_cached, read_cache_url, h]
  · intro now ts net h
    have h2 : now - ts < CACHE_TTL_URL := by
      have := ttl_neg_lt_ttl_url
      omega
    simp [check_url_cached, read_cache_url, h, h2]
  · intro now ts net h
    by_cases h2 : now - ts < CACHE_TTL_URL <;>
      simp [check_url_cached, read_cache_url, h2, not_lt.mpr h]
  · intro now ts net h
    have h2 : ¬ now - ts < CACHE_TTL_URL_NEG := by
      have := ttl_neg_lt_ttl_url
      omega
    simp [check_url_cached, read_cache_url, not_lt.mpr h, h2]

/-- Witness for C9 at a concrete age (10 days): a negative entry of that age
is re-checked over the network while a positive one of the same age is
trusted. -/
theorem c9_ttl_asymmetry_witness :
    check_url_cached 864000 CACHE_TTL_URL (some ⟨0, false⟩) true
      = (true, true, some ⟨864000, true⟩) ∧
    check_url_cached 864000 CACHE_TTL_URL (some ⟨0, true⟩) false
      = (true, false, some ⟨0, true⟩) :=
  ⟨c9_ttl_asymmetry.2.2.2.1 864000 0 true (by norm_num [CACHE_TTL_URL_NEG]),
   c9_ttl_asymmetry.2.1 864000 0 false (by norm_num [CACHE_TTL_URL])⟩

/-! ## GitHub stats caching (`sys_sec_scrape.cached_github_stats`)

The parsed stats dictionary built from a 200 response is abstracted as a
payload type `β`; everything else follows the source control flow:

```python
cached = _read_cache(url, ttl=ttl, namespace='github_stats')
if cached is not None:
    return cached
...
entry = _read_cache_entry(url, namespace='github_stats')
if entry and entry.get('etag'):
    headers['If-None-Match'] = entry['etag']
resp = _session.get(...)
if resp.status_code == 403 and 'rate limit' in resp.text.lower():
    ...sleep...
    resp = _session.get(...)
if resp.status_code == 304 and entry:
    _refresh_cache_ts(url, namespace='github_stats')
    return entry.get('body')
elif resp.status_code == 200:
    result = {...}
    _write_cache(url, result, namespace='github_stats', etag=etag)
    return result
else:
    result = None
    _write_cache(url, result, namespace='github_stats')
    return result
```
-/

/-- A well-formed entry of the `github_stats` namespace: timestamp, body
(`None` is stored after a failed lookup), optional ETag. -/
structure GhEntry (β : Type) where
  ts : Int
  body : Option β
  etag : Option String
deriving DecidableEq

/-- An HTTP response to the stats request, after status-code classification:
`rateLimited` is a 403 whose text mentions the rate limit, `notModified` a
304, `ok` a 200 carrying the parsed stats payload and the response ETag, and
`failure` any other outcome. -/
inductive GhResponse (β : Type) where
  | rateLimited
  | notModified
  | ok (result : β) (etag : Option String)
  | failure
deriving DecidableEq

/-- `_read_cache` specialised to a well-formed `github_stats` entry.  A stored
`None` body is returned as `none`, which the caller cannot tell apart from a
cache miss. -/
def read_cache_gh {β : Type} (now ttl : Int) (e : Option (GhEntry β)) : Option β :=
  match e with
  | none => none
  | some e => if now - e.ts < ttl then e.body else none

/-- `sys_sec_scrape.cached_github_stats`.  `r1` is the first response the
network would give; `r2` is the response to the single retry performed when
`r1` is a rate-limit 403.  Returns (value returned to the caller, whether the
network was contacted, the cache entry afterwards). -/
def cached_github_stats {β : Type} (now ttl : Int) (e : Option (GhEntry β))
    (r1 r2 : GhResponse β) : Option β × Bool × Option (GhEntry β) :=
  match read_cache_gh now ttl e with
  | some v => (some v, false, e)
  | none =>
    let resp := match r1 with
      | .rateLimited => r2
      | _ => r1
    match resp, e with
    | .notModified, some entry => (entry.body, true, some { entry with ts := now })
    | .notModified, none => (none, true, some ⟨now, none, none⟩)
    | .ok result etag, _ => (some result, true, some ⟨now, some result, etag⟩)
    | .failure, _ => (none, true, some ⟨now, none, none⟩)
    | .rateLimited, _ => (none, true, some ⟨now, none, none⟩)

/-- C10: a failed stats lookup (neither 200 nor 304) writes a cache entry
whose body is `None`; the freshness read returns `none` on such an entry
exactly as on a missing one, so a later call with a stored-`None` entry always
contacts the network again — a cached failure never short-circuits. -/
theorem c10_cached_failure_never_short_circuits {β : Type} :
    (∀ (now ttl : Int) (e : Option (GhEntry β)) (r2 : GhResponse β),
      read_cache_gh now ttl e = none →
      cached_github_stats now ttl e .failure r2
        = (none, true, some ⟨now, none, none⟩)) ∧
    (∀ (now ttl ts : Int) (etag : Option String),
      read_cache_gh (β := β) now ttl (some ⟨ts, none, etag⟩)
        = read_cache_gh (β := β) now ttl none) ∧
    (∀ (now ttl ts : Int) (etag : Option String) (r1 r2 : GhResponse β),
      (cached_github_stats now ttl (some ⟨ts, none, etag⟩) r1 r2).2.1 = true) := by
  refine ⟨?_, ?_, ?_⟩
  · intro now ttl e r2 h
    unfold cached_github_stats
    rw [h]
  · intro now ttl ts etag
    simp [read_cache_gh]
  · intro now ttl ts etag r1 r2
    have h : read_cache_gh (β := β) now ttl (some ⟨ts, none, etag⟩) = none := by
      simp [read_cache_gh]
    unfold cached_github_stats
    rw [h]
    rcases r1 with _ | _ | ⟨v, t⟩ | _ <;> rcases r2 with _ | _ | ⟨v2, t2⟩ | _ <;> rfl

/-- Witness for C10 at concrete values: a failure gets cached with body
`None`, and the very next call (same clock, entry perfectly fresh) still
contacts the network. -/
theorem c10_cached_failure_never_short_circuits_witness :
    cached_github_stats (β := Nat) 1000 2592000 none .failure .failure
      = (none, true, some ⟨1000, none, none⟩) ∧
    (cached_github_stats (β := Nat) 1001 2592000 (some ⟨1000, none, none⟩)
      .failure .failure).2.1 = true :=
  ⟨(c10_cached_failure_never_short_circuits (β := Nat)).1 1000 2592000 none .failure rfl,
   (c10_cached_failure_never_short_circuits (β := Nat)).2.2 1001 2592000 1000 none .failure .failure⟩

/-! ## ACM DL circuit breaker (`acm_scrape.scrape_acm_proceedings`)

```python
acm_dl_accessible = True  # optimistic
blocked_count = 0

def _fetch_badges(paper):
    nonlocal acm_dl_accessible, blocked_count
    if not acm_dl_accessible:
        return paper, []
    badges = _scrape_acm_paper_badges(paper['doi'], sess)
    if badges is None:
        blocked_count += 1
        if blocked_count >= 3:
            acm_dl_accessible = False
            ...
        return paper, []
    ...
    return paper, badges
```

The worker pool is modelled as the sequential linearisation of the task list
(each task runs the same `_fetch_badges` body against the shared counters).
A task's oracle outcome is the value `_scrape_acm_paper_badges` would return:
`some badges` on success, `none` when ACM DL is blocked or errors out. -/

/-- A paper record from the DBLP listing. -/
structure Paper where
  title : String
  doi : String
  authors : String
deriving DecidableEq

/-- The shared per-run health state for the ACM DL source. -/
structure AcmHealth where
  accessible : Bool
  blockedCount : Nat
deriving DecidableEq

/-- One badge-scraping task: the paper and the outcome the scrape would
produce if attempted. -/
abbrev AcmTask := Paper × Option (List String)

/-- `_fetch_badges` for one paper: returns the new health state, the
(paper, badges) row, and whether the scrape was attempted at all. -/
def fetch_badges (st : AcmHealth) (p : Paper) (outcome : Option (List String)) :
    AcmHealth × ((Paper × List String) × Bool) :=
  if st.accessible then
    match outcome with
    | none =>
      let c := st.blockedCount + 1
      (⟨if 3 ≤ c then false else st.accessible, c⟩, ((p, []), true))
    | some badges => (st, ((p, badges), true))
  else
    (st, ((p, []), false))

/-- The badge-scraping loop over the task list, threading the shared health
state. -/
def run_fetches (st : AcmHealth) : List AcmTask → AcmHealth × List ((Paper × List String) × Bool)
  | [] => (st, [])
  | (p, o) :: rest =>
    let step := fetch_badges st p o
    let tail := run_fetches step.1 rest
    (tail.1, step.2 :: tail.2)

/-- `acm_scrape.scrape_acm_proceedings` after the DBLP listing succeeded:
starts from the optimistic state, processes every paper, and reports the rows
together with the final accessibility flag. -/
def scrape_acm_proceedings (dblp : List Paper) (outcomes : Paper → Option (List String)) :
    List (Paper × List String) × Bool :=
  if dblp = [] then ([], false)
  else
    let r := run_fetches ⟨true, 0⟩ (dblp.map (fun p => (p, outcomes p)))
    (r.2.map (fun x => x.1), r.1.accessible)

/-- Once the source is marked inaccessible, every remaining task is skipped:
no attempt, empty badges, state unchanged. -/
theorem run_fetches_blocked (st : AcmHealth) (h : st.accessible = false) :
    ∀ l : List AcmTask, run_fetches st l = (st, l.map (fun po => ((po.1, []), false)))
  | [] => by simp [run_fetches]
  | (p, o) :: rest => by
    have hstep : fetch_badges st p o = (st, ((p, []), false)) := by
      simp [fetch_badges, h]
    simp [run_fetches, hstep, run_fetches_blocked st h rest]

/-- The run processes list segments independently. -/
theorem run_fetches_append (st : AcmHealth) (l1 l2 : List AcmTask) :
    run_fetches st (l1 ++ l2)
      = ((run_fetches (run_fetches st l1).1 l2).1,
         (run_fetches st l1).2 ++ (run_fetches (run_fetches st l1).1 l2).2) := by
  induction l1 generalizing st with
  | nil => simp [run_fetches]
  | cons po rest ih =>
    obtain ⟨p, o⟩ := po
    simp [run_fetches, ih]

/-- Every task contributes exactly one output row, carrying its own paper. -/
theorem run_fetches_papers (st : AcmHealth) (l : List AcmTask) :
    (run_fetches st l).2.map (fun x => x.1.1) = l.map (fun po => po.1) := by
  induction l generalizing st with
  | nil => simp [run_fetches]
  | cons po rest ih =>
    obtain ⟨p, o⟩ := po
    have : (fetch_badges st p o).2.1.1 = p := by
      unfold fetch_badges
      by_cases h : st.accessible <;> cases o <;> simp [h]
    simp [run_fetches, this, ih]

/-- Composing the row projection with the task construction of
`scrape_acm_proceedings` recovers the DBLP paper list. -/
theorem run_fetches_rows (st : AcmHealth) (dblp : List Paper)
    (outcomes : Paper → Option (List String)) :
    ((run_fetches st (dblp.map (fun p => (p, outcomes p)))).2.map (fun x => x.1)).map Prod.fst
      = dblp := by
  induction dblp generalizing st with
  | nil => simp [run_fetches]
  | cons p rest ih =>
    have hp : (fetch_badges st p (outcomes p)).2.1.1 = p := by
      unfold fetch_badges
      by_cases h : st.accessible <;> cases houtcome : outcomes p <;> simp [h]
    simp [run_fetches, hp, ih]

/-- C5: if a run makes three consecutive attempted-and-blocked scrapes against
ACM DL (the three tasks carry a blocked outcome and each was actually
attempted), the source's accessible flag is false afterwards and every later
task of the run is skipped — it produces the row (paper, no badges) without
any scrape attempt — while the paper list obtained from the other source
(DBLP) still yields exactly one output row per paper, whatever the ACM
outcomes were.  The starting state `st` is arbitrary, so the three blocked
attempts may occur anywhere in the run. -/
theorem c5_circuit_breaker :
    (∀ (st : AcmHealth) (p1 p2 p3 : Paper) (post : List AcmTask),
      (run_fetches st [(p1, none), (p2, none), (p3, none)]).2.map (fun x => x.2)
        = [true, true, true] →
      (run_fetches st ([(p1, none), (p2, none), (p3, none)] ++ post)).1.accessible = false ∧
      (run_fetches st ([(p1, none), (p2, none), (p3, none)] ++ post)).2.drop 3
        = post.map (fun po => ((po.1, []), false))) ∧
    (∀ (dblp : List Paper) (outcomes : Paper → Option (List String)),
      (scrape_acm_proceedings dblp outcomes).1.map Prod.fst = dblp) := by
  constructor
  · intro st p1 p2 p3 post hattempted
    obtain ⟨acc, k⟩ := st
    cases acc with
    | false =>
      rw [run_fetches_blocked ⟨false, k⟩ rfl] at hattempted
      simp at hattempted
    | true =>
      by_cases h1 : 3 ≤ k + 1
      · exfalso
        simp [run_fetches, fetch_badges, h1, run_fetches_blocked] at hattempted
      · by_cases h2 : 3 ≤ k + 2
        · exfalso
          simp [run_fetches, fetch_badges, h1, h2, run_fetches_blocked] at hattempted
        · have h3 : 3 ≤ k + 3 := by omega
          have hthree :
              (run_fetches ⟨true, k⟩ [(p1, none), (p2, none), (p3, none)]).1
                = ⟨false, k + 3⟩ := by
            simp [run_fetches, fetch_badges, h1, h2, h3]
          have hlen :
              (run_fetches ⟨true, k⟩ [(p1, none), (p2, none), (p3, none)]).2.length = 3 := by
            simp [run_fetches, fetch_badges, h1, h2, h3]
          rw [run_fetches_append]
          rw [hthree, run_fetches_blocked ⟨false, k + 3⟩ rfl post]
          constructor
          · rfl
          · rw [List.drop_append_of_le_length (by omega)]
            simp [hlen]
  · intro dblp outcomes
    unfold scrape_acm_proceedings
    by_cases h : dblp = []
    · simp [h]
    · simp only [if_neg h]
      exact run_fetches_rows ⟨true, 0⟩ dblp outcomes

/-- Witness for C5: a concrete five-paper run whose outcomes are all blocked;
the first three attempts trip the breaker, papers four and five are skipped
without an attempt, and all five DBLP papers still appear in the output. -/
theorem c5_circuit_breaker_witness :
    (run_fetches ⟨true, 0⟩
        [(⟨"P1", "d1", "a"⟩, none), (⟨"P2", "d2", "a"⟩, none), (⟨"P3", "d3", "a"⟩, none)]).2.map
        (fun x => x.2) = [true, true, true] ∧
    (run_fetches ⟨true, 0⟩
        ([(⟨"P1", "d1", "a"⟩, none), (⟨"P2", "d2", "a"⟩, none), (⟨"P3", "d3", "a"⟩, none)] ++
          [(⟨"P4", "d4", "a"⟩, none), (⟨"P5", "d5", "a"⟩, none)])).1.accessible = false ∧
    (run_fetches ⟨true, 0⟩
        ([(⟨"P1", "d1", "a"⟩, none), (⟨"P2", "d2", "a"⟩, none), (⟨"P3", "d3", "a"⟩, none)] ++
          [(⟨"P4", "d4", "a"⟩, none), (⟨"P5", "d5", "a"⟩, none)])).2.drop 3
      = [((⟨"P4", "d4", "a"⟩, []), false), ((⟨"P5", "d5", "a"⟩, []), false)] := by
  have h := c5_circuit_breaker.1 ⟨true, 0⟩ ⟨"P1", "d1", "a"⟩ ⟨"P2", "d2", "a"⟩ ⟨"P3", "d3", "a"⟩
    [(⟨"P4", "d4", "a"⟩, none), (⟨"P5", "d5", "a"⟩, none)] (by rfl)
  exact ⟨by rfl, h.1, h.2⟩

/-! ## Results-page parser (`sys_sec_artifacts_results_scrape.get_ae_results`)

The per-document parsing stage of `get_ae_results` (its second loop):

```python
parts = re.split(r'^---\s*$', content, maxsplit=2, flags=re.MULTILINE)
if len(parts) >= 2:
    yaml_part = parts[1].replace('\t', '  ')
    try:
        parsed_content = yaml.safe_load(yaml_part)
        if parsed_content and 'artifacts' in parsed_content:
            parsed_results[conf_year] = parsed_content['artifacts']
            continue
        elif parsed_content and 'issues' in parsed_content:
            all_artifacts = []
            for issue in parsed_content['issues']:
                all_artifacts.extend(issue.get('artifacts', []))
            if all_artifacts:
                parsed_results[conf_year] = all_artifacts
                continue
    except yaml.YAMLError:
        ...
artifacts = parse_html_results(content)
if not artifacts:
    artifacts = parse_markdown_table_results(content)
if artifacts:
    parsed_results[conf_year] = artifacts
```

Documents are modelled as lists of lines.  `yaml.safe_load` and the
BeautifulSoup-based `parse_html_results` are external, so they are oracle
parameters; `parse_markdown_table_results` is pure string processing and is
embedded in full.  The YAML oracle output is restricted to the shapes the
branch conditions inspect: a parse error, a falsy value, or a mapping with
its optional `artifacts` list, optional `issues` list, and a flag recording
whether it has further keys (for truthiness). -/

/-- An artifact record: either a front-matter mapping (whose `title`/`badges`
fields the claims inspect) or a row built by the table parsers. -/
structure Artifact where
  title : String
  badges : String
  paper_url : Option String := none
  repository_url : Option String := none
  artifact_url : Option String := none
deriving DecidableEq

/-- One entry of a PETS-style `issues` list: `issue.get('artifacts', [])`. -/
structure YamlIssue where
  artifacts : Option (List Artifact)
deriving DecidableEq

/-- The outcome of `yaml.safe_load` on a front-matter block, restricted to the
shapes inspected by `get_ae_results`. -/
inductive YamlOut where
  | err
  | falsy
  | dict (arts : Option (List Artifact)) (issues : Option (List YamlIssue)) (hasOtherKeys : Bool)
deriving DecidableEq

/-- The external parsing dependencies of `get_ae_results`: `yaml.safe_load`
(applied to the front-matter lines) and the BeautifulSoup-based
`parse_html_results` (applied to the whole document). -/
structure ParseOracles where
  safe_load : List String → YamlOut
  html : List String → List Artifact

/-- A line matching the front-matter delimiter `^---\s*$`. -/
def isFmDelim (line : String) : Bool :=
  "---".data.isPrefixOf line.data && (line.data.drop 3).all Char.isWhitespace

/-- Split off the chunk before the first delimiter line, if any. -/
def splitOnceFm : List String → Option (List String × List String)
  | [] => none
  | l :: rest =>
    if isFmDelim l then some ([], rest)
    else (splitOnceFm rest).map (fun pr => (l :: pr.1, pr.2))

/-- `re.split(r'^---\s*$', content, maxsplit=2, flags=re.MULTILINE)` on the
line list: up to two delimiter lines are removed, producing up to three
chunks. -/
def splitFrontMatter (lines : List String) : List (List String) :=
  match splitOnceFm lines with
  | none => [lines]
  | some (a, rest1) =>
    match splitOnceFm rest1 with
    | none => [a, rest1]
    | some (b, rest2) => [a, b, rest2]

/-- Python `line.replace('\t', '  ')`. -/
def replaceTabs (s : String) : String :=
  String.mk (s.data.foldr (fun c acc => if c = '\t' then ' ' :: ' ' :: acc else c :: acc) [])

/-- Python `s.split(delim)` on character lists (keeps empty chunks). -/
def splitChar (delim : Char) : List Char → List (List Char)
  | [] => [[]]
  | c :: rest =>
    if c = delim then [] :: splitChar delim rest
    else
      match splitChar delim rest with
      | [] => [[c]]
      | part :: parts => (c :: part) :: parts

/-- `re.search(r'\[([^\]]+)\]', s)`: the first non-empty bracketed group,
scanning left to right. -/
def searchBracketGroup : List Char → Option (List Char)
  | [] => none
  | c :: rest =>
    if c = '[' then
      let inner := rest.takeWhile (fun ch => ch ≠ ']')
      if inner.isEmpty then searchBracketGroup rest
      else if (rest.dropWhile (fun ch => ch ≠ ']')).isEmpty then searchBracketGroup rest
      else some inner
    else searchBracketGroup rest

/-- `re.findall(r'\[([^\]]*)\]\(([^)]+)\)', s)`: all markdown links, scanned
left to right without overlap.  The fuel argument is the remaining input
length, so it never runs out. -/
def findMdLinksAux : Nat → List Char → List (List Char × List Char)
  | 0, _ => []
  | _ + 1, [] => []
  | n + 1, c :: rest =>
    if c = '[' then
      let text := rest.takeWhile (fun ch => ch ≠ ']')
      match rest.dropWhile (fun ch => ch ≠ ']') with
      | ']' :: '(' :: rest2 =>
        let url := rest2.takeWhile (fun ch => ch ≠ ')')
        if url.isEmpty then findMdLinksAux n rest
        else
          match rest2.dropWhile (fun ch => ch ≠ ')') with
          | ')' :: rest3 => (text, url) :: findMdLinksAux n rest3
          | _ => findMdLinksAux n rest
      | _ => findMdLinksAux n rest
    else findMdLinksAux n rest

/-- String-level wrapper for `findMdLinksAux`. -/
def findMdLinks (s : String) : List (String × String) :=
  (findMdLinksAux s.data.length s.data).map (fun pr => (String.mk pr.1, String.mk pr.2))

/-- A character allowed inside a bare URL by `[^\s<|]+`. -/
def bareUrlChar (ch : Char) : Bool :=
  !ch.isWhitespace && ch ≠ '<' && ch ≠ '|'

/-- First match of `re.findall(r'(https?://github\.com/[^\s<|]+)', s)`
(the caller only uses `bare_urls[0]`). -/
def findBareGithub : List Char → Option (List Char)
  | [] => none
  | c :: rest =>
    let l := c :: rest
    if "https://github.com/".data.isPrefixOf l then
      let body := (l.drop 19).takeWhile bareUrlChar
      if body.isEmpty then findBareGithub rest
      else some ("https://github.com/".data ++ body)
    else if "http://github.com/".data.isPrefixOf l then
      let body := (l.drop 18).takeWhile bareUrlChar
      if body.isEmpty then findBareGithub rest
      else some ("http://github.com/".data ++ body)
    else findBareGithub rest

/-- The body of the `for line in lines` loop of
`parse_markdown_table_results`: `none` when the line is skipped. -/
def parseMdRow (rawLine : String) : Option Artifact :=
  let line := pyStrip rawLine
  if !("|".data.isPrefixOf line.data) || pyIn ":-" line then none
  else
    let cells := (((splitChar '|' line.data).drop 1).dropLast).map
      (fun l => pyStrip (String.mk l))
    match cells with
    | c0 :: c1 :: restCells =>
      match searchBracketGroup c0.data with
      | none => none
      | some titleChars =>
        let title := pyStrip (String.mk titleChars)
        if pyLower title = "paper title" ∨ pyLower title = "" then none
        else
          let badges :=
            (if pyIn "id=\"aa\"" c1 || pyIn ">AVAILABLE<" c1 then ["available"] else []) ++
            (if pyIn "id=\"af\"" c1 || pyIn ">FUNCTIONAL<" c1 then ["functional"] else []) ++
            (if pyIn "id=\"rr\"" c1 || pyIn ">REPRODUCED<" c1 || pyIn ">REPLICATED<" c1
              then ["reproduced"] else [])
          let urls :=
            match restCells with
            | [] => ("", "")
            | c2 :: _ =>
              let viaLinks := (findMdLinks c2).foldl
                (fun (acc : String × String) (link : String × String) =>
                  let lt := pyLower link.1
                  if pyIn "github" lt || pyIn "gitlab" lt || pyIn "bitbucket" lt then
                    (link.2, acc.2)
                  else if pyIn "zenodo" lt || pyIn "figshare" lt || pyIn "doi" lt then
                    (acc.1, link.2)
                  else if acc.1 = "" then (link.2, acc.2)
                  else acc)
                ("", "")
              if viaLinks.1 = "" then
                match findBareGithub c2.data with
                | some u => (String.mk u, viaLinks.2)
                | none => viaLinks
              else viaLinks
          if title ≠ "" ∧ (badges ≠ [] ∨ urls.1 ≠ "" ∨ urls.2 ≠ "") then
            some { title := title,
                   badges := if badges ≠ [] then String.intercalate "," badges else "",
                   repository_url := if urls.1 ≠ "" then some urls.1 else none,
                   artifact_url := if urls.2 ≠ "" then some urls.2 else none }
          else none
    | _ => none

/-- `sys_sec_artifacts_results_scrape.parse_markdown_table_results`. -/
def parse_markdown_table_results (lines : List String) : List Artifact :=
  lines.filterMap parseMdRow

/-- The front-matter strategy of `get_ae_results`: the YAML branch including
the `artifacts`/`issues` dispatch; `none` means the branch set nothing and
control falls through to the table strategies. -/
def front_matter_records (safe_load : List String → YamlOut) (lines : List String) :
    Option (List Artifact) :=
  let parts := splitFrontMatter lines
  if 2 ≤ parts.length then
    match safe_load (((parts.get? 1).getD []).map replaceTabs) with
    | .err => none
    | .falsy => none
    | .dict arts? issues? hasOther =>
      let truthy := arts?.isSome || issues?.isSome || hasOther
      if truthy && arts?.isSome then arts?
      else if truthy && issues?.isSome then
        let all := ((issues?.getD []).map (fun i => i.artifacts.getD [])).flatten
        if all.isEmpty then none else some all
      else none
  else none

/-- The full per-document parsing stage of `get_ae_results`: front matter
first, then the HTML-table strategy, then the markdown-table fallback; the
result is the record list stored into `parsed_results`, or `none` when the
document contributes nothing. -/
def parse_results_document (o : ParseOracles) (lines : List String) :
    Option (List Artifact) :=
  match front_matter_records o.safe_load lines with
  | some arts => some arts
  | none =>
    let artifacts := o.html lines
    let artifacts2 := if artifacts.isEmpty then parse_markdown_table_results lines
      else artifacts
    if artifacts2.isEmpty then none else some artifacts2

/-- If the YAML front matter parses to a mapping carrying an `artifacts` list,
that list is stored as the strategy's result. -/
theorem front_matter_records_artifacts
    (sl : List String → YamlOut) (lines : List String) (arts : List Artifact)
    (issues? : Option (List YamlIssue)) (hasOther : Bool)
    (hparts : 2 ≤ (splitFrontMatter lines).length)
    (hyaml : sl ((((splitFrontMatter lines).get? 1).getD []).map replaceTabs)
      = .dict (some arts) issues? hasOther) :
    front_matter_records sl lines = some arts := by
  unfold front_matter_records
  simp only [if_pos hparts, hyaml, Option.isSome_some, Bool.true_or, Bool.and_self,
    if_pos]

/-- C1 (amended): when the front-matter block of a document parses to a
mapping whose `artifacts` entry is the single source record `a`, the parser
returns exactly `[a]` — the record passes through unchanged, so a source
title "Foo." keeps its trailing period and a source badge string
"available,functional" stays one raw comma-separated string (no splitting,
ordering or de-duplication happens in this parser). -/
theorem c1_front_matter_record_passthrough
    (sl : List String → YamlOut) (html : List String → List Artifact)
    (lines : List String) (a : Artifact)
    (issues? : Option (List YamlIssue)) (hasOther : Bool)
    (hparts : 2 ≤ (splitFrontMatter lines).length)
    (hyaml : sl ((((splitFrontMatter lines).get? 1).getD []).map replaceTabs)
      = .dict (some [a]) issues? hasOther) :
    parse_results_document ⟨sl, html⟩ lines = some [a] := by
  unfold parse_results_document
  rw [front_matter_records_artifacts sl lines [a] issues? hasOther hparts hyaml]

/-- The end-to-end document of the C1 scenario:
`artifacts: [{title: "Foo.", badges: "available,functional"}]`. -/
def fmDocFoo : List String :=
  ["---", "artifacts:", "- title: Foo.", "  badges: available,functional", "---"]

/-- The record `yaml.safe_load` produces for the front matter of `fmDocFoo`:
`{'title': 'Foo.', 'badges': 'available,functional'}`. -/
def fooRecord : Artifact :=
  { title := "Foo.", badges := "available,functional" }

/-- The `yaml.safe_load` oracle, pinned to its true value on the front-matter
block of `fmDocFoo`. -/
def slFoo : List String → YamlOut :=
  fun ls =>
    if ls = ["artifacts:", "- title: Foo.", "  badges: available,functional"] then
      .dict (some [fooRecord]) none false
    else .err

/-- C1 counterexample: on the claim's own end-to-end document the parser
yields exactly one record, but its title is "Foo." — the trailing period is
not stripped — and its badges value is the raw source string, not a
de-duplicated badge sequence. -/
theorem c1_counterexample_title_period_kept :
    parse_results_document ⟨slFoo, fun _ => []⟩ fmDocFoo = some [fooRecord] ∧
    fooRecord.title = "Foo." ∧
    fooRecord.title ≠ "Foo" ∧
    fooRecord.badges = "available,functional" := by
  exact ⟨by rfl, by rfl, by decide, by rfl⟩

/-- Witness for C1 (amended), applying the pass-through theorem to the
concrete end-to-end document. -/
theorem c1_front_matter_record_passthrough_witness :
    parse_results_document ⟨slFoo, fun _ => []⟩ fmDocFoo = some [fooRecord] :=
  c1_front_matter_record_passthrough slFoo (fun _ => []) fmDocFoo fooRecord none false
    (by decide) (by rfl)

/-- C6 (amended): strategies run in the fixed order front matter → HTML table
→ markdown table.  Whenever the front-matter strategy produces a record list
(which includes producing the *empty* list, from an `artifacts: []` mapping),
that list is the whole output and the table strategies are never applied (the
output does not depend on the HTML strategy at all); only when the
front-matter strategy produces nothing are the tables consulted, HTML first,
markdown second, first non-empty list winning. -/
theorem c6_strategy_priority :
    (∀ (sl : List String → YamlOut) (h1 h2 : List String → List Artifact)
       (lines : List String) (arts : List Artifact),
      front_matter_records sl lines = some arts →
      parse_results_document ⟨sl, h1⟩ lines = some arts ∧
      parse_results_document ⟨sl, h1⟩ lines = parse_results_document ⟨sl, h2⟩ lines) ∧
    (∀ (o : ParseOracles) (lines : List String),
      front_matter_records o.safe_load lines = none →
      parse_results_document o lines =
        (if (o.html lines).isEmpty then
          (if (parse_markdown_table_results lines).isEmpty then none
           else some (parse_markdown_table_results lines))
         else some (o.html lines))) := by
  constructor
  · intro sl h1 h2 lines arts hfm
    constructor
    · unfold parse_results_document
      rw [hfm]
    · unfold parse_results_document
      rw [hfm]
  · intro o lines hfm
    obtain ⟨sl, html⟩ := o
    unfold parse_results_document
    rw [hfm]
    by_cases hh : (html lines).isEmpty <;>
      by_cases hm : (parse_markdown_table_results lines).isEmpty <;>
        simp [hh, hm]

/-- The C6 scenario document: a front-matter block declaring an *empty*
artifacts list, followed by a table row that the markdown strategy can parse
into one record. -/
def docEmptyArts : List String :=
  ["---", "artifacts: []", "---",
   "| [T](http://x) | <span id=\"aa\">AVAILABLE</span> | [Github](http://github.com/a/b) |"]

/-- The `yaml.safe_load` oracle pinned to its true value on the front-matter
block of `docEmptyArts` (the mapping `{'artifacts': []}`). -/
def slEmptyArts : List String → YamlOut :=
  fun ls => if ls = ["artifacts: []"] then .dict (some []) none false else .err

/-- C6 counterexample to "the first strategy producing at least one record
determines the whole output": on `docEmptyArts` the markdown-table strategy
would produce one record (and the HTML strategy none, faithfully to a
document with no `<tr>` elements), yet the parser's output is the
front-matter's *empty* list — a strategy with zero records determined the
output and masked the table record. -/
theorem c6_counterexample_empty_front_matter_wins :
    parse_results_document ⟨slEmptyArts, fun _ => []⟩ docEmptyArts = some [] ∧
    parse_markdown_table_results docEmptyArts
      = [{ title := "T", badges := "available",
           repository_url := some "http://github.com/a/b" }] ∧
    parse_results_document ⟨slEmptyArts, fun _ => []⟩ docEmptyArts
      ≠ some (parse_markdown_table_results docEmptyArts) := by
  refine ⟨by rfl, by rfl, ?_⟩
  intro h
  rw [show parse_results_document ⟨slEmptyArts, fun _ => []⟩ docEmptyArts
      = some [] from rfl] at h
  rw [show parse_markdown_table_results docEmptyArts
      = [{ title := "T", badges := "available",
           repository_url := some "http://github.com/a/b" }] from rfl] at h
  simp at h

/-- Witness for C6 (amended): the first conjunct applied to the concrete
empty-artifacts document, with two different HTML oracles. -/
theorem c6_strategy_priority_witness :
    parse_results_document ⟨slEmptyArts, fun _ => []⟩ docEmptyArts = some [] ∧
    parse_results_document ⟨slEmptyArts, fun _ => []⟩ docEmptyArts
      = parse_results_document
          ⟨slEmptyArts, fun _ => [{ title := "X", badges := "available" }]⟩ docEmptyArts :=
  c6_strategy_priority.1 slEmptyArts (fun _ => [])
    (fun _ => [{ title := "X", badges := "available" }]) docEmptyArts [] (by rfl)

/-! ## Affiliation classifier (`generate_committee_stats.classify_member`)

```python
def classify_member(affiliation, prefix_tree, name_index):
    aff_lower = affiliation.lower().strip()
    if not aff_lower:
        return None, None
    matches = prefix_tree.values(prefix=aff_lower)
    if matches:
        uni = matches[0]
        return uni['country'], uni.get('name', affiliation)
    best_match = None
    best_ratio = 0
    for name, uni in name_index.items():
        ratio = fuzz.ratio(name, aff_lower)
        if ratio > best_ratio:
            best_ratio = ratio
            best_match = uni
    if best_ratio > 80 and best_match:
        return best_match['country'], best_match.get('name', affiliation)
    return None, None
```

`thefuzz.fuzz.ratio` is an external library and enters as an oracle returning
an integer score 0..100.  Every entry of the name index carries a `name` key
(the index is built from `uni['name']`), so `uni.get('name', affiliation)` is
the entry's name. -/

/-- An institution entry of the university index. -/
structure Uni where
  name : String
  country : String
deriving DecidableEq

/-- `pytrie.Trie(**name_index).values(prefix=aff)`: values of the index keys
that start with `aff`.  The claims below only use whether this list is empty,
so the enumeration order is kept as index order. -/
def trieValues (index : List (String × Uni)) (aff : String) : List Uni :=
  (index.filter (fun kv => aff.data.isPrefixOf kv.1.data)).map (fun kv => kv.2)

/-- One iteration of the fuzzy-matching loop: keep the candidate on a strict
score improvement. -/
def fuzzyStep (ratio : String → String → Nat) (aff : String)
    (acc : Option Uni × Nat) (kv : String × Uni) : Option Uni × Nat :=
  if acc.2 < ratio kv.1 aff then (some kv.2, ratio kv.1 aff) else acc

/-- The whole fuzzy-matching loop: `(best_match, best_ratio)` starting from
`(None, 0)`. -/
def fuzzyBest (ratio : String → String → Nat) (index : List (String × Uni))
    (aff : String) : Option Uni × Nat :=
  index.foldl (fuzzyStep ratio aff) (none, 0)

/-- `generate_committee_stats.classify_member`. -/
def classify_member (ratio : String → String → Nat) (index : List (String × Uni))
    (affiliation : String) : Option (String × String) :=
  let aff_lower := pyStrip (pyLower affiliation)
  if aff_lower = "" then none
  else
    match trieValues index aff_lower with
    | uni :: _ => some (uni.country, uni.name)
    | [] =>
      let best := fuzzyBest ratio index aff_lower
      if 80 < best.2 then
        match best.1 with
        | some u => some (u.country, u.name)
        | none => none
      else none

/-- The fuzzy fold never lowers the running best score. -/
theorem fuzzyFold_mono (ratio : String → String → Nat) (aff : String) :
    ∀ (l : List (String × Uni)) (acc : Option Uni × Nat),
      acc.2 ≤ (l.foldl (fuzzyStep ratio aff) acc).2
  | [], acc => le_refl _
  | kv :: rest, acc => by
    have h := fuzzyFold_mono ratio aff rest (fuzzyStep ratio aff acc kv)
    refine le_trans ?_ h
    unfold fuzzyStep
    by_cases hcmp : acc.2 < ratio kv.1 aff
    · simp [hcmp]
      omega
    · simp [hcmp]

/-- Every index entry's score is dominated by the final best score. -/
theorem fuzzyFold_bound (ratio : String → String → Nat) (aff : String) :
    ∀ (l : List (String × Uni)) (acc : Option Uni × Nat),
      ∀ kv ∈ l, ratio kv.1 aff ≤ (l.foldl (fuzzyStep ratio aff) acc).2
  | [], acc => by simp
  | kv0 :: rest, acc => by
    intro kv hkv
    rcases List.mem_cons.mp hkv with heq | hmem
    · subst heq
      have hmono := fuzzyFold_mono ratio aff rest (fuzzyStep ratio aff acc kv)
      refine le_trans ?_ hmono
      unfold fuzzyStep
      by_cases hcmp : acc.2 < ratio kv.1 aff
      · simp [hcmp]
      · simp [hcmp]
        omega
    · exact fuzzyFold_bound ratio aff rest (fuzzyStep ratio aff acc kv0) kv hmem

/-- If the final best score is positive and the starting accumulator was sound
(positive score implies a candidate), a candidate is present. -/
theorem fuzzyFold_some (ratio : String → String → Nat) (aff : String) :
    ∀ (l : List (String × Uni)) (acc : Option Uni × Nat),
      (0 < acc.2 → acc.1.isSome) →
      0 < (l.foldl (fuzzyStep ratio aff) acc).2 →
      (l.foldl (fuzzyStep ratio aff) acc).1.isSome
  | [], acc => fun h => h
  | kv :: rest, acc => by
    intro hinv
    refine fuzzyFold_some ratio aff rest (fuzzyStep ratio aff acc kv) ?_
    unfold fuzzyStep
    by_cases hcmp : acc.2 < ratio kv.1 aff
    · simp [hcmp]
    · simp [hcmp]
      exact hinv

/-- C3 (amended): for an affiliation with no match in the index (and a
non-empty normalised form), the fuzzy fallback keeps the single
highest-scoring candidate — the final best score dominates every entry's
score — and accepts it exactly when that score strictly exceeds the threshold
80: at a best score of at most 80 (in particular exactly 80) the classifier
returns unresolved, and above 80 it returns the kept candidate's country and
name. -/
theorem c3_fuzzy_threshold_strict
    (ratio : String → String → Nat) (index : List (String × Uni)) (affiliation : String)
    (hnp : trieValues index (pyStrip (pyLower affiliation)) = [])
    (hne : pyStrip (pyLower affiliation) ≠ "") :
    (∀ kv ∈ index,
      ratio kv.1 (pyStrip (pyLower affiliation))
        ≤ (fuzzyBest ratio index (pyStrip (pyLower affiliation))).2) ∧
    ((fuzzyBest ratio index (pyStrip (pyLower affiliation))).2 ≤ 80 →
      classify_member ratio index affiliation = none) ∧
    (80 < (fuzzyBest ratio index (pyStrip (pyLower affiliation))).2 →
      ∃ u, (fuzzyBest ratio index (pyStrip (pyLower affiliation))).1 = some u ∧
        classify_member ratio index affiliation = some (u.country, u.name)) := by
  refine ⟨fun kv hkv => fuzzyFold_bound ratio _ index (none, 0) kv hkv, ?_, ?_⟩
  · intro hle
    unfold classify_member
    rw [if_neg hne, hnp]
    simp only [not_lt.mpr hle, if_false]
  · intro hgt
    have h0 : 0 < (fuzzyBest ratio index (pyStrip (pyLower affiliation))).2 := by omega
    have hsome : (fuzzyBest ratio index (pyStrip (pyLower affiliation))).1.isSome :=
      fuzzyFold_some ratio _ index (none, 0) (by simp) h0
    obtain ⟨u, hu⟩ := Option.isSome_iff_exists.mp hsome
    refine ⟨u, hu, ?_⟩
    unfold classify_member
    rw [if_neg hne, hnp]
    simp only [if_pos hgt, hu]

/-- The reference institution for the C3 scenario. -/
def cmuUni : Uni :=
  { name := "carnegie mellon university", country := "United States" }

/-- A one-entry university index. -/
def cmuIndex : List (String × Uni) := [("carnegie mellon university", cmuUni)]

/-- A similarity oracle scoring every comparison exactly at the threshold 80
(`fuzz.ratio` returns integers 0..100, so 80 is an attainable score). -/
def ratioExactly80 : String → String → Nat := fun _ _ => 80

/-- C3 counterexample: with the typo input "carnegie melon univrsity" there
is no index match, the fuzzy fallback's best score is exactly the threshold
80 — and the classifier returns unresolved, not the institution, because the
code accepts only on `best_ratio > 80` (strictly). -/
theorem c3_counterexample_exact_threshold_rejected :
    trieValues cmuIndex "carnegie melon univrsity" = [] ∧
    fuzzyBest ratioExactly80 cmuIndex "carnegie melon univrsity" = (some cmuUni, 80) ∧
    classify_member ratioExactly80 cmuIndex "carnegie melon univrsity" = none := by
  exact ⟨by rfl, by rfl, by rfl⟩

/-- Witness for C3 (amended) at the concrete boundary input. -/
theorem c3_fuzzy_threshold_strict_witness :
    classify_member ratioExactly80 cmuIndex "carnegie melon univrsity" = none :=
  (c3_fuzzy_threshold_strict ratioExactly80 cmuIndex "carnegie melon univrsity"
    (by rfl) (by decide)).2.1 (by decide)

/-! ## Committee aggregator (`generate_committee_stats._compute_recurring_members`)

The member-map fold, restricted to the fields the merge logic reads
(`affiliation`, `name`, `years`) plus the counters of the merge contract
(`total_memberships`, `chair_count`, `years_count`); the remaining fields of
the source record (conference sets, per-area counters, role history) are
write-only accumulators never read by the merge rule:

```python
for conf_year, members in all_results.items():
    conf_name, year = _extract_conf_year(conf_year)
    for m in members:
        name_raw = m.get('name', '').strip()
        if not name_raw:
            continue
        norm = _normalize_name(name_raw)
        role = m.get('role', 'member')
        affiliation = m.get('affiliation', '').strip('*_ \t')
        if norm not in member_map:
            member_map[norm] = {'name': name_raw, 'affiliation': affiliation, ...}
        rec = member_map[norm]
        rec['total_memberships'] += 1
        if role == 'chair':
            rec['chair_count'] += 1
        if year:
            rec['years'].add(year)
            rec['years_count'][year] = rec['years_count'].get(year, 0) + 1
        if affiliation and (not rec['affiliation'] or (year and max(rec['years']) == year)):
            rec['affiliation'] = affiliation
            rec['name'] = name_raw
```

`unicodedata.normalize('NFKD', ...)` plus combining-mark removal is the
identity on the ASCII fragment modelled here. -/

/-- Python `str.upper` on the ASCII fragment. -/
def pyUpper (s : String) : String :=
  String.mk (s.data.map Char.toUpper)

/-- `generate_committee_stats._extract_conf_year`:
`re.match(r'^([a-zA-Z]+)(\d{4})$', s)` giving (upper-cased name, year). -/
def extract_conf_year (s : String) : String × Option Nat :=
  let alpha := s.data.takeWhile Char.isAlpha
  let rest := s.data.dropWhile Char.isAlpha
  if alpha ≠ [] ∧ rest.length = 4 ∧ rest.all Char.isDigit then
    (pyUpper (String.mk alpha), some (rest.foldl (fun acc c => acc * 10 + (c.toNat - 48)) 0))
  else (pyUpper s, none)

/-- `generate_committee_stats._normalize_name`: strip, lowercase, fold
diacritics (identity on ASCII), delete periods, collapse whitespace, strip. -/
def normalize_name (name : String) : String :=
  let s := pyLower (pyStrip name)
  let noPeriods := String.mk (s.data.filter (fun c => c ≠ '.'))
  pyStrip (pyCollapseWs noPeriods)

/-- A raw committee-member dict: `m.get('name', '')`, `m.get('affiliation', '')`,
`m.get('role', 'member')`. -/
structure MemberRec where
  name : Option String := none
  affiliation : Option String := none
  role : Option String := none
deriving DecidableEq

/-- The per-person aggregate record (fields read by the merge logic and the
merge-contract counters). -/
structure PersonRec where
  name : String
  affiliation : String
  total_memberships : Nat
  chair_count : Nat
  years : List Nat
  years_count : List (Nat × Nat)
deriving DecidableEq

/-- Python `set.add` on an insertion-ordered list model. -/
def setAdd (l : List Nat) (y : Nat) : List Nat :=
  if l.contains y then l else l ++ [y]

/-- `d[k] = d.get(k, 0) + 1` on an insertion-ordered counter. -/
def bumpCount : List (Nat × Nat) → Nat → List (Nat × Nat)
  | [], y => [(y, 1)]
  | (k, v) :: rest, y => if k = y then (k, v + 1) :: rest else (k, v) :: bumpCount rest y

/-- Python `max` over the (always non-empty when consulted) year set. -/
def listMax (l : List Nat) : Nat :=
  l.foldl Nat.max 0

/-- Python truthiness of the extracted year (`None` and `0` are falsy). -/
def yearTruthy : Option Nat → Bool
  | none => false
  | some n => n ≠ 0

/-- The stripped name `m.get('name', '').strip()`. -/
def recName (m : MemberRec) : String :=
  pyStrip (m.name.getD "")

/-- The stripped affiliation `m.get('affiliation', '').strip('*_ \t')`. -/
def recAff (m : MemberRec) : String :=
  pyStripChars ['*', '_', ' ', '\t'] (m.affiliation.getD "")

/-- The year extracted from a conf-year key. -/
def recYear (conf_year : String) : Option Nat :=
  (extract_conf_year conf_year).2

/-- The body of the inner `for m in members` loop, acting on the member map
(an insertion-ordered association list keyed by normalised name). -/
def merge_step (state : List (String × PersonRec)) (conf_year : String)
    (m : MemberRec) : List (String × PersonRec) :=
  let name_raw := recName m
  if name_raw = "" then state
  else
    let norm := normalize_name name_raw
    let role := m.role.getD "member"
    let affiliation := recAff m
    let year := recYear conf_year
    let state1 :=
      if (state.find? (fun kv => kv.1 = norm)).isSome then state
      else state ++ [(norm,
        { name := name_raw, affiliation := affiliation,
          total_memberships := 0, chair_count := 0,
          years := [], years_count := [] })]
    state1.map (fun kv =>
      if kv.1 = norm then
        let rec1 :=
          { kv.2 with
            total_memberships := kv.2.total_memberships + 1,
            chair_count := kv.2.chair_count + (if role = "chair" then 1 else 0) }
        let rec2 :=
          if yearTruthy year then
            { rec1 with
              years := setAdd rec1.years (year.getD 0),
              years_count := bumpCount rec1.years_count (year.getD 0) }
          else rec1
        let rec3 :=
          if affiliation ≠ "" ∧
              (rec2.affiliation = "" ∨
                (yearTruthy year ∧ listMax rec2.years = year.getD 0)) then
            { rec2 with affiliation := affiliation, name := name_raw }
          else rec2
        (kv.1, rec3)
      else kv)

/-- The member-map fold from a given starting map, over flattened
(conf-year, member) pairs. -/
def mergeRunFrom (state : List (String × PersonRec)) (rs : List (String × MemberRec)) :
    List (String × PersonRec) :=
  rs.foldl (fun st r => merge_step st r.1 r.2) state

/-- The member-map fold of `_compute_recurring_members` over
`all_results.items()`. -/
def merge_members (all_results : List (String × List MemberRec)) :
    List (String × PersonRec) :=
  all_results.foldl
    (fun st g => g.2.foldl (fun st2 m => merge_step st2 g.1 m) st) []

/-- The (year, affiliation) projection of a flattened record list. -/
def yearAffProjection (rs : List (String × MemberRec)) : List (Nat × String) :=
  rs.map (fun r => ((recYear r.1).getD 0, recAff r.2))

/-- Reference fold: the running (maximum year, winning affiliation) pair,
where a record whose year reaches the current maximum (ties included) takes
over the affiliation. -/
def lastMaxAffAux (cur : Nat × String) : List (Nat × String) → Nat × String
  | [] => cur
  | (y, a) :: rest => lastMaxAffAux (if cur.1 ≤ y then (y, a) else cur) rest

/-- Folding `Nat.max` never drops below the seed. -/
theorem le_foldl_max (l : List Nat) : ∀ a : Nat, a ≤ l.foldl Nat.max a := by
  induction l with
  | nil => intro a; exact le_refl a
  | cons c rest ih =>
    intro a
    exact le_trans (Nat.le_max_left a c) (ih (Nat.max a c))

/-- Folding `Nat.max` dominates every list element. -/
theorem mem_le_foldl_max (l : List Nat) : ∀ (a y : Nat), y ∈ l → y ≤ l.foldl Nat.max a := by
  induction l with
  | nil => intro a y hy; cases hy
  | cons c rest ih =>
    intro a y hy
    rcases List.mem_cons.mp hy with h | h
    · subst h
      exact le_trans (Nat.le_max_right a y) (le_foldl_max rest (Nat.max a y))
    · exact ih (Nat.max a c) y h

/-- Adding a year to the set updates the maximum accordingly. -/
theorem listMax_setAdd (l : List Nat) (y : Nat) :
    listMax (setAdd l y) = Nat.max (listMax l) y := by
  unfold setAdd
  by_cases h : l.contains y
  · have hy : y ∈ l := by simpa using h
    have hle : y ≤ listMax l := mem_le_foldl_max l 0 y hy
    rw [if_pos h]
    exact (max_eq_left hle).symm
  · rw [if_neg h]
    unfold listMax
    rw [List.foldl_append]
    rfl

/-- One merge step on a single-entry map when the incoming year reaches the
stored maximum: the non-empty incoming affiliation (and name spelling)
overwrites the stored one — ties at the maximum included. -/
theorem merge_step_single_high (key : String) (rec : PersonRec) (cy : String) (m : MemberRec)
    (hname : recName m ≠ "") (hnorm : normalize_name (recName m) = key)
    (hy : yearTruthy (recYear cy) = true) (haffm : recAff m ≠ "")
    (hle : listMax rec.years ≤ (recYear cy).getD 0) :
    merge_step [(key, rec)] cy m = [(key,
      { name := recName m, affiliation := recAff m,
        total_memberships := rec.total_memberships + 1,
        chair_count := rec.chair_count
          + (if m.role.getD "member" = "chair" then 1 else 0),
        years := setAdd rec.years ((recYear cy).getD 0),
        years_count := bumpCount rec.years_count ((recYear cy).getD 0) })] := by
  have hmxeq : listMax (setAdd rec.years ((recYear cy).getD 0)) = (recYear cy).getD 0 := by
    rw [listMax_setAdd]
    exact max_eq_right hle
  simp only [merge_step, if_neg hname, hnorm, List.find?, Option.isSome]
  simp only [List.map, hy]
  simp only [if_true, true_and]
  have hcnd : recAff m ≠ "" ∧
      (rec.affiliation = "" ∨
        listMax (setAdd rec.years ((recYear cy).getD 0)) = (recYear cy).getD 0) :=
    ⟨haffm, Or.inr hmxeq⟩
  rw [if_pos hcnd]

/-- One merge step on a single-entry map when the incoming year is strictly
below the stored maximum and an affiliation is already stored: the stored
affiliation is kept. -/
theorem merge_step_single_low (key : String) (rec : PersonRec) (cy : String) (m : MemberRec)
    (hname : recName m ≠ "") (hnorm : normalize_name (recName m) = key)
    (hy : yearTruthy (recYear cy) = true)
    (haffr : rec.affiliation ≠ "")
    (hgt : ¬ listMax rec.years ≤ (recYear cy).getD 0) :
    merge_step [(key, rec)] cy m = [(key,
      { name := rec.name, affiliation := rec.affiliation,
        total_memberships := rec.total_memberships + 1,
        chair_count := rec.chair_count
          + (if m.role.getD "member" = "chair" then 1 else 0),
        years := setAdd rec.years ((recYear cy).getD 0),
        years_count := bumpCount rec.years_count ((recYear cy).getD 0) })] := by
  have hmxne : ¬ listMax (setAdd rec.years ((recYear cy).getD 0)) = (recYear cy).getD 0 := by
    rw [listMax_setAdd]
    intro h
    exact hgt (h ▸ le_max_left (listMax rec.years) ((recYear cy).getD 0))
  simp only [merge_step, if_neg hname, hnorm, List.find?, Option.isSome]
  simp only [List.map, hy]
  simp only [if_true, true_and]
  have hcnd : ¬ (recAff m ≠ "" ∧
      (rec.affiliation = "" ∨
        listMax (setAdd rec.years ((recYear cy).getD 0)) = (recYear cy).getD 0)) := by
    rintro ⟨-, hor⟩
    rcases hor with h0 | hm
    · exact haffr h0
    · exact hmxne hm
  rw [if_neg hcnd]

/-- The first record for a person creates the map entry and seeds the
affiliation and year set. -/
theorem merge_step_create (key : String) (cy : String) (m : MemberRec)
    (hname : recName m ≠ "") (hnorm : normalize_name (recName m) = key)
    (hy : yearTruthy (recYear cy) = true) :
    merge_step [] cy m = [(key,
      { name := recName m, affiliation := recAff m,
        total_memberships := 1,
        chair_count := (if m.role.getD "member" = "chair" then 1 else 0),
        years := [(recYear cy).getD 0],
        years_count := [((recYear cy).getD 0, 1)] })] := by
  simp only [merge_step, if_neg hname, hnorm, List.find?, Option.isSome]
  simp only [List.map, hy]
  simp only [if_true, true_and]
  simp [setAdd, bumpCount]

/-- Invariant of the single-person fold: the final (maximum year,
affiliation) pair is obtained by running the `lastMaxAffAux` reference fold
over the (year, affiliation) projection of the records. -/
theorem mergeRunFrom_single_key (key : String) :
    ∀ (rs : List (String × MemberRec)) (rec : PersonRec),
      (∀ r ∈ rs, recName r.2 ≠ "" ∧ normalize_name (recName r.2) = key) →
      (∀ r ∈ rs, recAff r.2 ≠ "") →
      (∀ r ∈ rs, yearTruthy (recYear r.1) = true) →
      rec.affiliation ≠ "" →
      ∃ rec' : PersonRec,
        mergeRunFrom [(key, rec)] rs = [(key, rec')] ∧
        (listMax rec'.years, rec'.affiliation)
          = lastMaxAffAux (listMax rec.years, rec.affiliation) (yearAffProjection rs)
  | [], rec => by
    intro _ _ _ _
    exact ⟨rec, rfl, rfl⟩
  | r :: rest, rec => by
    intro hn ha hy haffr
    obtain ⟨hname, hnorm⟩ := hn r (List.mem_cons_self r rest)
    have haffm := ha r (List.mem_cons_self r rest)
    have hyr := hy r (List.mem_cons_self r rest)
    have hn2 : ∀ q ∈ rest, recName q.2 ≠ "" ∧ normalize_name (recName q.2) = key :=
      fun q hq => hn q (List.mem_cons_of_mem r hq)
    have ha2 : ∀ q ∈ rest, recAff q.2 ≠ "" :=
      fun q hq => ha q (List.mem_cons_of_mem r hq)
    have hy2 : ∀ q ∈ rest, yearTruthy (recYear q.1) = true :=
      fun q hq => hy q (List.mem_cons_of_mem r hq)
    by_cases hle : listMax rec.years ≤ (recYear r.1).getD 0
    · have hstep := merge_step_single_high key rec r.1 r.2 hname hnorm hyr haffm hle
      obtain ⟨rec', h1, h2⟩ := mergeRunFrom_single_key key rest
        { name := recName r.2, affiliation := recAff r.2,
          total_memberships := rec.total_memberships + 1,
          chair_count := rec.chair_count
            + (if r.2.role.getD "member" = "chair" then 1 else 0),
          years := setAdd rec.years ((recYear r.1).getD 0),
          years_count := bumpCount rec.years_count ((recYear r.1).getD 0) }
        hn2 ha2 hy2 haffm
      refine ⟨rec', ?_, ?_⟩
      · unfold mergeRunFrom at h1 ⊢
        rw [List.foldl_cons, hstep]
        exact h1
      · rw [h2]
        have hyears : listMax (setAdd rec.years ((recYear r.1).getD 0))
            = (recYear r.1).getD 0 := by
          rw [listMax_setAdd]
          exact max_eq_right hle
        simp only [yearAffProjection, List.map, lastMaxAffAux, if_pos hle]
        rw [hyears]
    · have hstep := merge_step_single_low key rec r.1 r.2 hname hnorm hyr haffr hle
      obtain ⟨rec', h1, h2⟩ := mergeRunFrom_single_key key rest
        { name := rec.name, affiliation := rec.affiliation,
          total_memberships := rec.total_memberships + 1,
          chair_count := rec.chair_count
            + (if r.2.role.getD "member" = "chair" then 1 else 0),
          years := setAdd rec.years ((recYear r.1).getD 0),
          years_count := bumpCount rec.years_count ((recYear r.1).getD 0) }
        hn2 ha2 hy2 haffr
      refine ⟨rec', ?_, ?_⟩
      · unfold mergeRunFrom at h1 ⊢
        rw [List.foldl_cons, hstep]
        exact h1
      · rw [h2]
        have hyears : listMax (setAdd rec.years ((recYear r.1).getD 0))
            = listMax rec.years := by
          rw [listMax_setAdd]
          exact max_eq_left (le_of_lt (not_le.mp hle))
        simp only [yearAffProjection, List.map, lastMaxAffAux, if_neg hle]
        rw [hyears]

/-- The grouped fold of `_compute_recurring_members` equals the fold over the
flattened (conf-year, member) pairs. -/
theorem merge_members_eq_flat (groups : List (String × List MemberRec)) :
    merge_members groups
      = mergeRunFrom [] (groups.flatMap (fun g => g.2.map (fun m => (g.1, m)))) := by
  suffices h : ∀ (gs : List (String × List MemberRec)) (st : List (String × PersonRec)),
      gs.foldl (fun st2 g => g.2.foldl (fun st3 mm => merge_step st3 g.1 mm) st2) st
        = mergeRunFrom st (gs.flatMap (fun g => g.2.map (fun m => (g.1, m)))) by
    exact h groups []
  intro gs
  induction gs with
  | nil => intro st; rfl
  | cons g rest ih =>
    intro st
    simp only [List.foldl_cons, List.flatMap_cons]
    rw [ih]
    unfold mergeRunFrom
    rw [List.foldl_append, List.foldl_map]

/-- C4 (amended): merging the records of one person (same normalised name,
non-empty affiliations, well-formed years), the stored affiliation ends up as
dictated by the reference fold `lastMaxAffAux`: a record whose year reaches
the *current maximum — ties included —* takes over the affiliation, so the
final affiliation is the one of the **last** record whose year equals the
overall maximum year, not the first-seen one.  (When the stored affiliation
is empty the code additionally overwrites regardless of year; that case is
excluded here by the non-empty hypothesis.)  The first conjunct reduces the
grouped fold of `_compute_recurring_members` to the flattened fold the second
conjunct characterises. -/
theorem c4_affiliation_last_max_year_wins :
    (∀ groups : List (String × List MemberRec),
      merge_members groups
        = mergeRunFrom [] (groups.flatMap (fun g => g.2.map (fun m => (g.1, m))))) ∧
    (∀ (key : String) (r : String × MemberRec) (rest : List (String × MemberRec)),
      (∀ q ∈ r :: rest, recName q.2 ≠ "" ∧ normalize_name (recName q.2) = key) →
      (∀ q ∈ r :: rest, recAff q.2 ≠ "") →
      (∀ q ∈ r :: rest, yearTruthy (recYear q.1) = true) →
      ∃ rec' : PersonRec,
        mergeRunFrom [] (r :: rest) = [(key, rec')] ∧
        (listMax rec'.years, rec'.affiliation)
          = lastMaxAffAux ((recYear r.1).getD 0, recAff r.2) (yearAffProjection rest)) := by
  refine ⟨merge_members_eq_flat, ?_⟩
  intro key r rest hn ha hy
  obtain ⟨hname, hnorm⟩ := hn r (List.mem_cons_self r rest)
  have haffm := ha r (List.mem_cons_self r rest)
  have hyr := hy r (List.mem_cons_self r rest)
  have hcreate := merge_step_create key r.1 r.2 hname hnorm hyr
  obtain ⟨rec', h1, h2⟩ := mergeRunFrom_single_key key rest
    { name := recName r.2, affiliation := recAff r.2,
      total_memberships := 1,
      chair_count := (if r.2.role.getD "member" = "chair" then 1 else 0),
      years := [(recYear r.1).getD 0],
      years_count := [((recYear r.1).getD 0, 1)] }
    (fun q hq => hn q (List.mem_cons_of_mem r hq))
    (fun q hq => ha q (List.mem_cons_of_mem r hq))
    (fun q hq => hy q (List.mem_cons_of_mem r hq))
    haffm
  refine ⟨rec', ?_, ?_⟩
  · unfold mergeRunFrom at h1 ⊢
    rw [List.foldl_cons, hcreate]
    exact h1
  · rw [h2]
    have hseed : listMax [(recYear r.1).getD 0] = (recYear r.1).getD 0 := by
      simp [listMax]
    rw [hseed]

/-- Committee record of the tie scenario, first seen: affiliation "X". -/
def smithA : MemberRec := { name := some "A. Smith", affiliation := some "X" }

/-- Committee record of the tie scenario, second seen: affiliation "Y". -/
def smithB : MemberRec := { name := some "A Smith", affiliation := some "Y" }

/-- C4 counterexample: two records for the same person carrying non-empty
affiliations "X" then "Y" in the *same* (maximum) year 2023 merge to the
affiliation "Y" — the **last**-seen value for that year, not the first-seen
"X" the claim promises. -/
theorem c4_counterexample_same_year_tie_keeps_last :
    merge_members [("osdi2023", [smithA, smithB])]
      = [("a smith",
          { name := "A Smith", affiliation := "Y", total_memberships := 2,
            chair_count := 0, years := [2023], years_count := [(2023, 2)] })] ∧
    recAff smithA = "X" ∧
    recAff smithB = "Y" ∧
    ("Y" : String) ≠ "X" := by
  exact ⟨by rfl, by rfl, by rfl, by decide⟩

/-- Witness for C4 (amended) on the concrete tie scenario. -/
theorem c4_affiliation_last_max_year_wins_witness :
    ∃ rec' : PersonRec,
      mergeRunFrom [] [("osdi2023", smithA), ("osdi2023", smithB)]
        = [("a smith", rec')] ∧
      (listMax rec'.years, rec'.affiliation)
        = lastMaxAffAux (2023, "X") (yearAffProjection [("osdi2023", smithB)]) :=
  c4_affiliation_last_max_year_wins.2 "a smith" ("osdi2023", smithA)
    [("osdi2023", smithB)] (by decide) (by decide) (by decide)

end ArtifactAnalysis
